import Mathlib

/-!
Shallow embedding of the ESP32 Firebase Wake-on-LAN controller (src/main.ino).

The four core routines — sendWOL, firebaseStreamCallback,
checkAndInitFirebaseStructure and processWolQueue — are modelled as pure
functions from an environment (the outcomes the Firebase client library
reports for each read/write, exactly the data the C++ code branches on)
to a trace of effect events (packet emissions, delays, status writes,
deletions).  Each definition mirrors the branch structure of the
corresponding C++ function.
-/

namespace EspWol

/-! ### Packet dispatcher: sendWOL (main.ino lines 281-299) -/

/-- An IPv4 address as four octets, mirroring the Arduino IPAddress uses
of the source (only octet indexing is used). -/
structure IPv4 where
  a : Nat
  b : Nat
  c : Nat
  d : Nat
deriving DecidableEq, Repr

/-- Low-level events produced by sendWOL: a magic-packet emission via the
WakeOnLan library, the 50 ms pacing delay, or the error log line on the
rejected-input path. -/
inductive WEvent where
  | magicPacket (mac : String) (ip : IPv4)
  | pause (ms : Nat)
  | errorLog
deriving DecidableEq, Repr

/-- Broadcast address computation of main.ino lines 287-289: copy the local
IP and set the last octet to 255. -/
def broadcastOf (ip : IPv4) : IPv4 := { ip with d := 255 }

/-- The for loop of main.ino lines 295-298: each iteration emits one magic
packet to the broadcast address and then delays 50 ms. -/
def wolSendLoop (mac : String) (bip : IPv4) : Nat → List WEvent
  | 0 => []
  | Nat.succ n => WEvent.magicPacket mac bip :: WEvent.pause 50 :: wolSendLoop mac bip n

/-- sendWOL, main.ino lines 281-299.  The argument is an Option to model the
C null pointer; the only validation performed by the source is the null
check and strlen(macAddress) == 17. -/
def sendWOL (localIP : IPv4) (macAddress : Option String) : List WEvent :=
  match macAddress with
  | none => [WEvent.errorLog]
  | some mac =>
    if mac.length ≠ 17 then [WEvent.errorLog]
    else wolSendLoop mac (broadcastOf localIP) 3

/-- Number of magic-packet emissions in a sendWOL trace. -/
def magicCount (l : List WEvent) : Nat :=
  l.countP fun e => match e with
    | WEvent.magicPacket _ _ => true
    | _ => false

/-- Formalisation of the specification phrase: a valid 17-character
colon-separated hexadecimal hardware address.  This is the input class the
claims quantify over; it is NOT a predicate appearing in the source (the
source checks only the length). -/
def isHexChar (c : Char) : Bool :=
  c.isDigit || (97 ≤ c.toNat && c.toNat ≤ 102) || (65 ≤ c.toNat && c.toNat ≤ 70)

/-- Character at position i of a colon-hex MAC: positions 2, 5, 8, 11, 14
hold a colon, all others a hex digit. -/
def macCharOk (p : Nat × Char) : Bool :=
  if p.1 % 3 = 2 then p.2 == ':' else isHexChar p.2

/-- A valid 17-character colon-separated hexadecimal MAC string, as the
specification describes it. -/
def specValidMac (s : String) : Bool :=
  (s.length == 17) && s.toList.enum.all macCharOk

/-! ### Trigger watcher: firebaseStreamCallback (main.ino lines 302-324) -/

/-- Fixed target address for the direct trigger, main.ino line 47. -/
def DIRECT_TRIGGER_TARGET_MAC : String := "00:00:00:00:00:00"

/-- The part of a FirebaseStream notification the callback branches on:
whether the payload type is boolean and, if so, its boolean value. -/
structure StreamData where
  isBool : Bool
  boolData : Bool
deriving DecidableEq, Repr

/-- Store-level effect events shared by the trigger watcher and the queue
processor: a blocking wait, a call of the packet dispatcher (sendWOL), a
status write to a task, a task deletion, and the trigger-flag write. -/
inductive QEvent where
  | wait (ms : Int)
  | dispatch (mac : String)
  | writeStatus (taskId : String) (status : String)
  | del (taskId : String)
  | writeFlag (value : Bool)
deriving DecidableEq, Repr

/-- firebaseStreamCallback, main.ino lines 302-324: when the notification
payload is boolean true, call sendWOL on the fixed target and write false
back to the trigger path; otherwise do nothing. -/
def firebaseStreamCallback (d : StreamData) : List QEvent :=
  if d.isBool && d.boolData then
    [QEvent.dispatch DIRECT_TRIGGER_TARGET_MAC, QEvent.writeFlag false]
  else []

/-! ### Structure bootstrapper: checkAndInitFirebaseStructure (lines 237-277) -/

/-- Value of the library constant FIREBASE_ERROR_PATH_NOT_EXIST.  The
constant lives in the Firebase client library, outside this repository;
the logic only ever compares httpCode against it, so its concrete value is
immaterial. -/
def FIREBASE_ERROR_PATH_NOT_EXIST : Int := 100

/-- Outcome of one Firebase.RTDB.get call as the source inspects it:
success flag, and on failure the httpCode and dataType strings the error
branch examines. -/
structure ReadResult where
  ok : Bool
  httpCode : Int
  dataType : String
deriving DecidableEq, Repr

/-- The missing-or-null test of main.ino lines 243 and 260: the read failed
and either the path does not exist or the reported data type is null. -/
def missingOrNull (r : ReadResult) : Bool :=
  !r.ok && (r.httpCode == FIREBASE_ERROR_PATH_NOT_EXIST || r.dataType == "null")

/-- Write events of the bootstrapper: initialising the trigger flag to
false, or the queue path to the empty object. -/
inductive IEvent where
  | initTrigger
  | initQueue
deriving DecidableEq, Repr

/-- Environment of one checkAndInitFirebaseStructure call: the two read
outcomes and the success of each default write (consulted only when the
write is attempted). -/
structure InitEnv where
  trigRead : ReadResult
  trigWriteOk : Bool
  queueRead : ReadResult
  queueWriteOk : Bool
deriving DecidableEq, Repr

/-- checkAndInitFirebaseStructure, main.ino lines 237-277: for each of the
two fixed paths, on a failed read whose cause is missing-or-null write the
default value (success of that write feeds the returned bool); any other
failed read is logged and treated as non-fatal; a successful read does
nothing.  Returns the trace of default writes and the success bool. -/
def checkAndInitFirebaseStructure (e : InitEnv) : List IEvent × Bool :=
  let trig : List IEvent × Bool :=
    if !e.trigRead.ok then
      if e.trigRead.httpCode == FIREBASE_ERROR_PATH_NOT_EXIST || e.trigRead.dataType == "null" then
        ([IEvent.initTrigger], e.trigWriteOk)
      else ([], true)
    else ([], true)
  let queue : List IEvent × Bool :=
    if !e.queueRead.ok then
      if e.queueRead.httpCode == FIREBASE_ERROR_PATH_NOT_EXIST || e.queueRead.dataType == "null" then
        ([IEvent.initQueue], e.queueWriteOk)
      else ([], true)
    else ([], true)
  (trig.1 ++ queue.1, trig.2 && queue.2)

/-! ### Queue processor: processWolQueue (main.ino lines 341-483) -/

/-- Outcome of one FirebaseJsonData field extraction, as the source
inspects it: whether jsonObject().get returned true, the success flag of
the produced data, its string value, whether its typeNum is JSON_INT or
JSON_FLOAT, and its intValue. -/
structure FieldRes where
  found : Bool
  success : Bool
  stringValue : String
  isNumeric : Bool
  intValue : Int
deriving DecidableEq, Repr

/-- Outcome of the per-task Firebase.RTDB.get of main.ino line 376 together
with the field extractions the source performs on the fetched object. -/
structure TaskFetch where
  ok : Bool
  isJson : Bool
  status : FieldRes
  mac : FieldRes
  delayField : FieldRes
deriving DecidableEq, Repr

/-- One entry of the bulk-queue iterator: its key, whether the iterator
reports it as a JSON object (main.ino line 368), the per-task fetch
outcome, and whether the status write for this task (done or
error_missing_mac) succeeds when attempted. -/
structure QueueItem where
  key : String
  isObject : Bool
  fetch : TaskFetch
  statusWriteOk : Bool
deriving DecidableEq, Repr

/-- Arduino String::toInt, i.e. C atol: skip whitespace, optional sign,
leading digits; 0 when no digits are present. -/
def digitsVal : List Char → Int → Int
  | [], acc => acc
  | c :: cs, acc => if c.isDigit then digitsVal cs (acc * 10 + ((c.toNat : Int) - 48)) else acc

/-- Leading-whitespace skip of atol. -/
def dropWs (cs : List Char) : List Char :=
  cs.dropWhile fun c => c == ' ' || c == '\t' || c == '\n' || c == '\r'

/-- String-to-integer coercion used for a delay stored as a string
(main.ino line 403). -/
def arduinoToInt (s : String) : Int :=
  match dropWs s.toList with
  | '-' :: rest => - digitsVal rest 0
  | '+' :: rest => digitsVal rest 0
  | cs => digitsVal cs 0

/-- Delay extraction of main.ino lines 398-407: 0 when the field is absent
or unreadable; intValue when numeric, string coercion otherwise; negative
values clamped to 0. -/
def delayOf (f : TaskFetch) : Int :=
  if f.delayField.found && f.delayField.success then
    let d := if f.delayField.isNumeric then f.delayField.intValue
             else arduinoToInt f.delayField.stringValue
    if d < 0 then 0 else d
  else 0

/-- Body of the per-task loop of main.ino lines 365-456 for one queue item:
returns the effect events of this task and the ids it marks for deletion
(marks are pushed only when the prune option is set). -/
def processQueueItem (prune : Bool) (it : QueueItem) : List QEvent × List String :=
  if it.isObject then
    if it.fetch.ok then
      if it.fetch.isJson then
        if it.fetch.status.found then
          if it.fetch.status.success && (it.fetch.status.stringValue == "pending") then
            if it.fetch.mac.found && it.fetch.mac.success then
              let macAddress := it.fetch.mac.stringValue
              let delayMs := delayOf it.fetch
              let evs := (if delayMs > 0 then [QEvent.wait delayMs] else [])
                ++ [QEvent.dispatch macAddress, QEvent.writeStatus it.key "done"]
              if it.statusWriteOk then
                (evs, if prune then [it.key] else [])
              else
                (evs, [])
            else
              ([QEvent.writeStatus it.key "error_missing_mac"], [])
          else if !it.fetch.status.success then
            ([], [])
          else
            ([], if prune && (it.fetch.status.stringValue == "done") then [it.key] else [])
        else ([], [])
      else ([], [])
    else ([], [])
  else ([], [])

/-- Environment of one processWolQueue call: Firebase.ready, the outcome of
the bulk getJSON of line 350 (with the httpCode and dataType its error
branch distinguishes), the iterator items on success, and the pruning
option DELETE_COMPLETED_QUEUE_TASKS (false in the shipped configuration,
main.ino line 63). -/
structure QueueEnv where
  ready : Bool
  bulkOk : Bool
  bulkHttpCode : Int
  bulkDataType : String
  items : List QueueItem
  prune : Bool
deriving DecidableEq, Repr

/-- The task loop of main.ino lines 365-456: accumulate events and marked
ids over the items in iterator order. -/
def queuePass (prune : Bool) (items : List QueueItem) : List QEvent × List String :=
  items.foldl (fun acc it =>
    let r := processQueueItem prune it
    (acc.1 ++ r.1, acc.2 ++ r.2)) ([], [])

/-- processWolQueue, main.ino lines 341-483: skip when Firebase is not
ready; on a successful bulk read run the task loop and then, when pruning
is on and ids were marked, attempt one deletion per marked id (lines
461-472; a failed deletion only logs and the loop continues); on a failed
bulk read do nothing (lines 474-481 only log, whether the cause is the
null/absent result or a genuine error). -/
def processWolQueue (env : QueueEnv) : List QEvent :=
  if !env.ready then []
  else if env.bulkOk then
    if env.items.length == 0 then []
    else
      let res := queuePass env.prune env.items
      res.1 ++ (if env.prune && !res.2.isEmpty then res.2.map QEvent.del else [])
  else []

/-- Events contributed by a single item. -/
def itemEvents (prune : Bool) (it : QueueItem) : List QEvent :=
  (processQueueItem prune it).1

/-- Deletion marks contributed by a single item. -/
def itemMarks (prune : Bool) (it : QueueItem) : List String :=
  (processQueueItem prune it).2

/-- Concatenation of all per-item events in iterator order. -/
def passEvents (prune : Bool) (items : List QueueItem) : List QEvent :=
  (items.map (itemEvents prune)).flatten

/-- Concatenation of all per-item deletion marks in iterator order. -/
def markedIds (prune : Bool) (items : List QueueItem) : List String :=
  (items.map (itemMarks prune)).flatten

/-- The deletion block of main.ino lines 461-472 as a function of the
marked ids. -/
def delBlock (prune : Bool) (items : List QueueItem) : List QEvent :=
  if prune && !(markedIds prune items).isEmpty then
    (markedIds prune items).map QEvent.del
  else []

/-- The read-failure kinds of the per-task loop that leave a task entirely
untouched: not an object, failed individual fetch, fetched data not JSON,
status field not found, or status data unsuccessful. -/
def skipKindB (it : QueueItem) : Bool :=
  !it.isObject || !it.fetch.ok || !it.fetch.isJson
    || !it.fetch.status.found || !it.fetch.status.success

/-- A task on the full processing path: object, fetched, JSON, readable
status equal to pending, readable mac. -/
def pendingValidB (it : QueueItem) : Bool :=
  it.isObject && it.fetch.ok && it.fetch.isJson && it.fetch.status.found
    && it.fetch.status.success && (it.fetch.status.stringValue == "pending")
    && it.fetch.mac.found && it.fetch.mac.success

/-- The id an item contributes to the deletion list, main.ino lines 424-426
and 437-439: a pending task whose done write succeeded, or a task whose
status reads as done. -/
def markSelector (it : QueueItem) : Option String :=
  if it.isObject && it.fetch.ok && it.fetch.isJson && it.fetch.status.found then
    if it.fetch.status.success && (it.fetch.status.stringValue == "pending") then
      if (it.fetch.mac.found && it.fetch.mac.success) && it.statusWriteOk then
        some it.key
      else none
    else if it.fetch.status.success && (it.fetch.status.stringValue == "done") then
      some it.key
    else none
  else none

/-! ### Concrete sample values used by the witness theorems -/

/-- A pending task with a valid mac, no delay field, successful writes. -/
def c1Task : QueueItem :=
  { key := "t1", isObject := true,
    fetch := { ok := true, isJson := true,
               status := { found := true, success := true, stringValue := "pending",
                           isNumeric := false, intValue := 0 },
               mac := { found := true, success := true, stringValue := "AA:BB:CC:DD:EE:FF",
                        isNumeric := false, intValue := 0 },
               delayField := { found := false, success := false, stringValue := "",
                               isNumeric := false, intValue := 0 } },
    statusWriteOk := true }

/-- A queue environment holding only the pending sample task. -/
def c1Env : QueueEnv :=
  { ready := true, bulkOk := true, bulkHttpCode := 200, bulkDataType := "json",
    items := [c1Task], prune := false }

/-- A pending task whose mac field is absent. -/
def c2Task : QueueItem :=
  { key := "t2", isObject := true,
    fetch := { ok := true, isJson := true,
               status := { found := true, success := true, stringValue := "pending",
                           isNumeric := false, intValue := 0 },
               mac := { found := false, success := false, stringValue := "",
                        isNumeric := false, intValue := 0 },
               delayField := { found := false, success := false, stringValue := "",
                               isNumeric := false, intValue := 0 } },
    statusWriteOk := true }

/-- A queue environment holding only the missing-mac sample task. -/
def c2Env : QueueEnv :=
  { ready := true, bulkOk := true, bulkHttpCode := 200, bulkDataType := "json",
    items := [c2Task], prune := false }

/-- A task whose status reads as done. -/
def c3Task : QueueItem :=
  { key := "t3", isObject := true,
    fetch := { ok := true, isJson := true,
               status := { found := true, success := true, stringValue := "done",
                           isNumeric := false, intValue := 0 },
               mac := { found := true, success := true, stringValue := "AA:BB:CC:DD:EE:FF",
                        isNumeric := false, intValue := 0 },
               delayField := { found := false, success := false, stringValue := "",
                               isNumeric := false, intValue := 0 } },
    statusWriteOk := true }

/-- A queue entry the iterator reports as not a JSON object. -/
def c7Task : QueueItem :=
  { key := "t7", isObject := false,
    fetch := { ok := false, isJson := false,
               status := { found := false, success := false, stringValue := "",
                           isNumeric := false, intValue := 0 },
               mac := { found := false, success := false, stringValue := "",
                        isNumeric := false, intValue := 0 },
               delayField := { found := false, success := false, stringValue := "",
                               isNumeric := false, intValue := 0 } },
    statusWriteOk := true }

/-- A queue environment holding only the malformed sample entry. -/
def c7Env : QueueEnv :=
  { ready := true, bulkOk := true, bulkHttpCode := 200, bulkDataType := "json",
    items := [c7Task], prune := false }

/-- A task already marked done, for the pruning witness. -/
def c8Task : QueueItem :=
  { key := "t8", isObject := true,
    fetch := { ok := true, isJson := true,
               status := { found := true, success := true, stringValue := "done",
                           isNumeric := false, intValue := 0 },
               mac := { found := true, success := true, stringValue := "AA:BB:CC:DD:EE:FF",
                        isNumeric := false, intValue := 0 },
               delayField := { found := false, success := false, stringValue := "",
                               isNumeric := false, intValue := 0 } },
    statusWriteOk := true }

/-- A queue environment with pruning enabled and one done task. -/
def c8Env : QueueEnv :=
  { ready := true, bulkOk := true, bulkHttpCode := 200, bulkDataType := "json",
    items := [c8Task], prune := true }

/-- A bootstrapper environment in which the trigger path is missing and the
queue path read errors for another reason. -/
def c9EnvMissing : InitEnv :=
  { trigRead := { ok := false, httpCode := FIREBASE_ERROR_PATH_NOT_EXIST, dataType := "" },
    trigWriteOk := true,
    queueRead := { ok := false, httpCode := 500, dataType := "json" },
    queueWriteOk := true }

/-- A bootstrapper environment in which both paths already read
successfully. -/
def c9EnvReady : InitEnv :=
  { trigRead := { ok := true, httpCode := 200, dataType := "boolean" },
    trigWriteOk := true,
    queueRead := { ok := true, httpCode := 200, dataType := "json" },
    queueWriteOk := true }

/-- A queue environment whose bulk read fails with a genuine error. -/
def c10Env : QueueEnv :=
  { ready := true, bulkOk := false, bulkHttpCode := 500, bulkDataType := "json",
    items := [], prune := false }

/-! ### Helper lemmas -/

/-- The fold of the task loop equals the pair of per-item concatenations. -/
lemma queuePass_eq (prune : Bool) (items : List QueueItem) :
    queuePass prune items = (passEvents prune items, markedIds prune items) := by
  have h : ∀ (l : List QueueItem) (acc : List QEvent × List String),
      l.foldl (fun acc it =>
        let r := processQueueItem prune it
        (acc.1 ++ r.1, acc.2 ++ r.2)) acc
        = (acc.1 ++ passEvents prune l, acc.2 ++ markedIds prune l) := by
    intro l
    induction l with
    | nil => intro acc; simp [passEvents, markedIds]
    | cons x xs ih =>
      intro acc
      simp only [List.foldl_cons, ih, passEvents, markedIds, List.map_cons,
        List.flatten_cons, itemEvents, itemMarks, List.append_assoc]
  simpa [queuePass] using h items ([], [])

/-- Per-item events split over list append. -/
lemma passEvents_append (prune : Bool) (l1 l2 : List QueueItem) :
    passEvents prune (l1 ++ l2) = passEvents prune l1 ++ passEvents prune l2 := by
  simp [passEvents]

/-- Per-item events of a cons. -/
lemma passEvents_cons (prune : Bool) (it : QueueItem) (l : List QueueItem) :
    passEvents prune (it :: l) = itemEvents prune it ++ passEvents prune l := by
  simp [passEvents]

/-- Per-item marks split over list append. -/
lemma markedIds_append (prune : Bool) (l1 l2 : List QueueItem) :
    markedIds prune (l1 ++ l2) = markedIds prune l1 ++ markedIds prune l2 := by
  simp [markedIds]

/-- Per-item marks of a cons. -/
lemma markedIds_cons (prune : Bool) (it : QueueItem) (l : List QueueItem) :
    markedIds prune (it :: l) = itemMarks prune it ++ markedIds prune l := by
  simp [markedIds]

/-- processWolQueue on a ready connection and successful bulk read is the
task-loop events followed by the deletion block. -/
lemma processWolQueue_decomp (env : QueueEnv)
    (h1 : env.ready = true) (h2 : env.bulkOk = true) :
    processWolQueue env = passEvents env.prune env.items ++ delBlock env.prune env.items := by
  unfold processWolQueue
  rw [h1, h2]
  cases hitems : env.items with
  | nil => simp [passEvents, markedIds, delBlock, itemEvents, itemMarks]
  | cons x xs =>
    rw [queuePass_eq]
    simp [delBlock, hitems]

/-- A task hit by one of the per-task read failures contributes nothing. -/
lemma processQueueItem_skip (prune : Bool) (it : QueueItem) (h : skipKindB it = true) :
    processQueueItem prune it = ([], []) := by
  unfold skipKindB at h
  unfold processQueueItem
  simp only [Bool.or_eq_true, Bool.not_eq_true'] at h
  obtain (((h | h) | h) | h) | h := h
  all_goals simp [h]

/-- A pending task with readable mac produces the delay-dispatch-write
event sequence; it is marked for deletion only when the write succeeded
and pruning is on. -/
lemma processQueueItem_pending (prune : Bool) (it : QueueItem) (h : pendingValidB it = true) :
    processQueueItem prune it =
      ((if delayOf it.fetch > 0 then [QEvent.wait (delayOf it.fetch)] else [])
        ++ [QEvent.dispatch it.fetch.mac.stringValue, QEvent.writeStatus it.key "done"],
       if it.statusWriteOk then (if prune then [it.key] else []) else []) := by
  unfold pendingValidB at h
  simp only [Bool.and_eq_true, beq_iff_eq] at h
  obtain ⟨⟨⟨⟨⟨⟨⟨hobj, hok⟩, hjson⟩, hsf⟩, hss⟩, hsp⟩, hmf⟩, hms⟩ := h
  unfold processQueueItem
  cases hw : it.statusWriteOk <;>
    simp [hobj, hok, hjson, hsf, hss, hsp, hmf, hms, hw]

/-- A pending task with unreadable mac is flagged and nothing else. -/
lemma processQueueItem_missing_mac (prune : Bool) (it : QueueItem)
    (hobj : it.isObject = true) (hok : it.fetch.ok = true) (hjson : it.fetch.isJson = true)
    (hsf : it.fetch.status.found = true) (hss : it.fetch.status.success = true)
    (hsp : it.fetch.status.stringValue = "pending")
    (hmac : ¬(it.fetch.mac.found = true ∧ it.fetch.mac.success = true)) :
    processQueueItem prune it = ([QEvent.writeStatus it.key "error_missing_mac"], []) := by
  have hm : (it.fetch.mac.found && it.fetch.mac.success) = false := by
    cases h1 : it.fetch.mac.found <;> cases h2 : it.fetch.mac.success <;> simp_all
  unfold processQueueItem
  simp [hobj, hok, hjson, hsf, hss, hsp, hm]

/-- A task whose status reads as some value other than pending produces no
events; it only contributes a deletion mark when pruning and done. -/
lemma processQueueItem_non_pending (prune : Bool) (it : QueueItem)
    (hobj : it.isObject = true) (hok : it.fetch.ok = true) (hjson : it.fetch.isJson = true)
    (hsf : it.fetch.status.found = true) (hss : it.fetch.status.success = true)
    (hsp : it.fetch.status.stringValue ≠ "pending") :
    processQueueItem prune it =
      ([], if prune && (it.fetch.status.stringValue == "done") then [it.key] else []) := by
  have hp : (it.fetch.status.stringValue == "pending") = false := by
    simp [hsp]
  unfold processQueueItem
  simp [hobj, hok, hjson, hsf, hss, hp]

/-- No deletion event ever appears among a single item's events. -/
lemma itemEvents_no_del (prune : Bool) (it : QueueItem) (k : String) :
    QEvent.del k ∉ itemEvents prune it := by
  unfold itemEvents processQueueItem
  split_ifs <;> simp

/-- The deletion marks of one item under pruning are given by the selector. -/
lemma itemMarks_true (it : QueueItem) :
    itemMarks true it = (markSelector it).toList := by
  unfold itemMarks processQueueItem markSelector
  split_ifs <;> simp_all

/-- Marked ids under pruning are the selector image of the items. -/
lemma markedIds_filterMap (items : List QueueItem) :
    markedIds true items = items.filterMap markSelector := by
  induction items with
  | nil => rfl
  | cons x xs ih =>
    rw [markedIds_cons, itemMarks_true, ih, List.filterMap_cons]
    cases markSelector x <;> simp

/-- Under pruning the deletion block is one deletion per marked id. -/
lemma delBlock_true (items : List QueueItem) :
    delBlock true items = (markedIds true items).map QEvent.del := by
  unfold delBlock
  cases h : (markedIds true items).isEmpty
  · simp [h]
  · simp [List.isEmpty_iff.mp h]

/-- Every delayOf value is non-negative (negative values are clamped). -/
lemma delayOf_nonneg (f : TaskFetch) : 0 ≤ delayOf f := by
  unfold delayOf
  dsimp only
  split_ifs <;> omega

/-! ### Claim theorems -/

/-- C1: for every pending task with a readable mac, one processWolQueue
invocation performs, in order, the wait given by the delay coercion (0
when the field is absent, never negative), then exactly one packet
dispatcher call with that task's mac, then the write of status done to
that task; and the full trace of the pass is the per-task segments
concatenated in iterator order followed by the deletion block, so a later
task's handling begins only after this one's segment, delay included, is
complete. -/
theorem queue_pending_task_dispatch_order (env : QueueEnv) (it : QueueItem)
    (h1 : env.ready = true) (h2 : env.bulkOk = true)
    (hobj : it.isObject = true) (hok : it.fetch.ok = true) (hjson : it.fetch.isJson = true)
    (hsf : it.fetch.status.found = true) (hss : it.fetch.status.success = true)
    (hsp : it.fetch.status.stringValue = "pending")
    (hmf : it.fetch.mac.found = true) (hms : it.fetch.mac.success = true) :
    itemEvents env.prune it =
      (if delayOf it.fetch > 0 then [QEvent.wait (delayOf it.fetch)] else [])
        ++ [QEvent.dispatch it.fetch.mac.stringValue, QEvent.writeStatus it.key "done"]
    ∧ (it.fetch.delayField.found = false → delayOf it.fetch = 0)
    ∧ 0 ≤ delayOf it.fetch
    ∧ processWolQueue env = passEvents env.prune env.items ++ delBlock env.prune env.items := by
  have hpv : pendingValidB it = true := by
    unfold pendingValidB
    simp [hobj, hok, hjson, hsf, hss, hsp, hmf, hms]
  refine ⟨?_, ?_, delayOf_nonneg it.fetch, processWolQueue_decomp env h1 h2⟩
  · unfold itemEvents
    rw [processQueueItem_pending env.prune it hpv]
  · intro hdf
    unfold delayOf
    simp [hdf]

/-- Witness for C1 at a concrete one-task queue. -/
theorem queue_pending_task_dispatch_order_witness :
    itemEvents c1Env.prune c1Task =
      [QEvent.dispatch "AA:BB:CC:DD:EE:FF", QEvent.writeStatus "t1" "done"]
    ∧ processWolQueue c1Env = passEvents c1Env.prune c1Env.items ++ delBlock c1Env.prune c1Env.items := by
  have h := queue_pending_task_dispatch_order c1Env c1Task rfl rfl rfl rfl rfl rfl rfl rfl rfl rfl
  exact ⟨by rw [h.1]; rfl, h.2.2.2⟩

/-- C2: a pending task whose mac is absent or unreadable gets status
error_missing_mac written, no packet dispatcher call is made for it, and
the pass continues with the remaining tasks, whose segments appear around
it unchanged. -/
theorem queue_missing_mac_flagged (env : QueueEnv) (l1 l2 : List QueueItem) (it : QueueItem)
    (h1 : env.ready = true) (h2 : env.bulkOk = true) (hitems : env.items = l1 ++ it :: l2)
    (hobj : it.isObject = true) (hok : it.fetch.ok = true) (hjson : it.fetch.isJson = true)
    (hsf : it.fetch.status.found = true) (hss : it.fetch.status.success = true)
    (hsp : it.fetch.status.stringValue = "pending")
    (hmac : ¬(it.fetch.mac.found = true ∧ it.fetch.mac.success = true)) :
    itemEvents env.prune it = [QEvent.writeStatus it.key "error_missing_mac"]
    ∧ (∀ m, QEvent.dispatch m ∉ itemEvents env.prune it)
    ∧ processWolQueue env =
        passEvents env.prune l1 ++ [QEvent.writeStatus it.key "error_missing_mac"]
          ++ passEvents env.prune l2 ++ delBlock env.prune env.items := by
  have hpi := processQueueItem_missing_mac env.prune it hobj hok hjson hsf hss hsp hmac
  have hev : itemEvents env.prune it = [QEvent.writeStatus it.key "error_missing_mac"] := by
    unfold itemEvents; rw [hpi]
  refine ⟨hev, ?_, ?_⟩
  · intro m
    rw [hev]
    simp
  · rw [processWolQueue_decomp env h1 h2, hitems, passEvents_append, passEvents_cons, hev,
      ← hitems]
    simp [List.append_assoc]

/-- Witness for C2 at a concrete one-task queue. -/
theorem queue_missing_mac_flagged_witness :
    itemEvents c2Env.prune c2Task = [QEvent.writeStatus "t2" "error_missing_mac"]
    ∧ processWolQueue c2Env =
        passEvents c2Env.prune [] ++ [QEvent.writeStatus "t2" "error_missing_mac"]
          ++ passEvents c2Env.prune [] ++ delBlock c2Env.prune c2Env.items := by
  have h := queue_missing_mac_flagged c2Env [] [] c2Task rfl rfl rfl rfl rfl rfl rfl rfl rfl
    (by decide)
  exact ⟨h.1, h.2.2⟩

/-- C3: a task whose status reads as any value other than pending
contributes no events at all to the pass: no packet dispatcher call and no
status write; in particular a task read back as done is never dispatched
again. -/
theorem queue_non_pending_untouched (prune : Bool) (it : QueueItem)
    (hobj : it.isObject = true) (hok : it.fetch.ok = true) (hjson : it.fetch.isJson = true)
    (hsf : it.fetch.status.found = true) (hss : it.fetch.status.success = true)
    (hsp : it.fetch.status.stringValue ≠ "pending") :
    itemEvents prune it = []
    ∧ (∀ m, QEvent.dispatch m ∉ itemEvents prune it)
    ∧ (∀ s, QEvent.writeStatus it.key s ∉ itemEvents prune it) := by
  have hpi := processQueueItem_non_pending prune it hobj hok hjson hsf hss hsp
  have hev : itemEvents prune it = [] := by
    unfold itemEvents; rw [hpi]
  exact ⟨hev, fun m => by rw [hev]; simp, fun s => by rw [hev]; simp⟩

/-- Witness for C3 at a concrete done task. -/
theorem queue_non_pending_untouched_witness :
    itemEvents false c3Task = [] :=
  (queue_non_pending_untouched false c3Task rfl rfl rfl rfl rfl (by decide)).1

/-- C4: a stream notification whose payload is boolean true produces
exactly one packet dispatcher call with the fixed pre-configured target
followed by the write of false to the flag path; any other notification
produces no dispatch and no flag write. -/
theorem trigger_watcher_true_dispatch (d : StreamData) :
    (d.isBool = true → d.boolData = true →
       firebaseStreamCallback d =
         [QEvent.dispatch DIRECT_TRIGGER_TARGET_MAC, QEvent.writeFlag false])
    ∧ (¬(d.isBool = true ∧ d.boolData = true) → firebaseStreamCallback d = []) := by
  unfold firebaseStreamCallback
  constructor
  · intro hb hv
    simp [hb, hv]
  · intro h
    have hf : (d.isBool && d.boolData) = false := by
      cases hb : d.isBool <;> cases hv : d.boolData <;> simp_all
    simp [hf]

/-- Witness for C4 at the two payloads true and false. -/
theorem trigger_watcher_true_dispatch_witness :
    firebaseStreamCallback ⟨true, true⟩ =
      [QEvent.dispatch DIRECT_TRIGGER_TARGET_MAC, QEvent.writeFlag false]
    ∧ firebaseStreamCallback ⟨true, false⟩ = [] :=
  ⟨(trigger_watcher_true_dispatch ⟨true, true⟩).1 rfl rfl,
   (trigger_watcher_true_dispatch ⟨true, false⟩).2 (by simp)⟩

/-- C5: for every valid 17-character colon-separated hexadecimal address,
sendWOL emits the magic packet exactly 3 times, each to the device's own
IPv4 address with its last octet set to 255, with a 50 ms pause after each
emission. -/
theorem sendWOL_valid_mac_three_packets (ip : IPv4) (mac : String)
    (h : specValidMac mac = true) :
    sendWOL ip (some mac) =
      [WEvent.magicPacket mac ⟨ip.a, ip.b, ip.c, 255⟩, WEvent.pause 50,
       WEvent.magicPacket mac ⟨ip.a, ip.b, ip.c, 255⟩, WEvent.pause 50,
       WEvent.magicPacket mac ⟨ip.a, ip.b, ip.c, 255⟩, WEvent.pause 50]
    ∧ magicCount (sendWOL ip (some mac)) = 3 := by
  have hlen : mac.length = 17 := by
    unfold specValidMac at h
    simp only [Bool.and_eq_true, beq_iff_eq] at h
    exact h.1
  have key : sendWOL ip (some mac) = wolSendLoop mac (broadcastOf ip) 3 := by
    unfold sendWOL
    simp [hlen]
  constructor
  · rw [key]
    rfl
  · rw [key]
    rfl

/-- Witness for C5 at a concrete address and local IP. -/
theorem sendWOL_valid_mac_three_packets_witness :
    sendWOL ⟨192, 168, 1, 23⟩ (some "AA:BB:CC:DD:EE:FF") =
      [WEvent.magicPacket "AA:BB:CC:DD:EE:FF" ⟨192, 168, 1, 255⟩, WEvent.pause 50,
       WEvent.magicPacket "AA:BB:CC:DD:EE:FF" ⟨192, 168, 1, 255⟩, WEvent.pause 50,
       WEvent.magicPacket "AA:BB:CC:DD:EE:FF" ⟨192, 168, 1, 255⟩, WEvent.pause 50]
    ∧ magicCount (sendWOL ⟨192, 168, 1, 23⟩ (some "AA:BB:CC:DD:EE:FF")) = 3 :=
  sendWOL_valid_mac_three_packets ⟨192, 168, 1, 23⟩ "AA:BB:CC:DD:EE:FF" (by decide)

/-- C6 counterexample: the string of seventeen characters made of G and
colon is not a valid colon-hex MAC, yet sendWOL emits 3 packets for it —
the source validates only the length, not the characters. -/
theorem sendWOL_hex_check_counterexample :
    specValidMac "GG:GG:GG:GG:GG:GG" = false
    ∧ magicCount (sendWOL ⟨192, 168, 1, 23⟩ (some "GG:GG:GG:GG:GG:GG")) = 3 := by
  constructor
  · decide
  · rfl

/-- C6 amended: for every input that is null or whose length differs from
17, sendWOL emits zero packets and only reports the error; the length
check is the only validation performed. -/
theorem sendWOL_length_gate (ip : IPv4) (m : Option String)
    (h : m = none ∨ ∃ s, m = some s ∧ s.length ≠ 17) :
    sendWOL ip m = [WEvent.errorLog] ∧ magicCount (sendWOL ip m) = 0 := by
  rcases h with h | ⟨s, hm, hs⟩
  · subst h
    exact ⟨rfl, rfl⟩
  · subst hm
    have hsw : sendWOL ip (some s) = [WEvent.errorLog] := by
      unfold sendWOL
      simp [hs]
    rw [hsw]
    exact ⟨rfl, rfl⟩

/-- Witness for the amended C6 at a short input. -/
theorem sendWOL_length_gate_witness :
    sendWOL ⟨10, 0, 0, 5⟩ (some "0:0") = [WEvent.errorLog]
    ∧ magicCount (sendWOL ⟨10, 0, 0, 5⟩ (some "0:0")) = 0 :=
  sendWOL_length_gate ⟨10, 0, 0, 5⟩ (some "0:0") (Or.inr ⟨"0:0", rfl, by decide⟩)

/-- C7: a per-task read failure (entry not an object, failed individual
fetch, fetched data not JSON, or unreadable status) contributes nothing
and removing that entry leaves the pass trace unchanged; a failed status
write leaves the task unmarked while its own events and every other
task's segment stay exactly as they are. -/
theorem queue_per_task_failure_contained (env : QueueEnv) (l1 l2 : List QueueItem)
    (it : QueueItem)
    (h1 : env.ready = true) (h2 : env.bulkOk = true) (hitems : env.items = l1 ++ it :: l2) :
    (skipKindB it = true →
       processQueueItem env.prune it = ([], [])
       ∧ processWolQueue env = processWolQueue { env with items := l1 ++ l2 })
    ∧ (pendingValidB it = true → it.statusWriteOk = false →
       itemMarks env.prune it = []
       ∧ processWolQueue env =
           passEvents env.prune l1 ++ itemEvents env.prune it ++ passEvents env.prune l2
             ++ delBlock env.prune (l1 ++ l2)) := by
  constructor
  · intro hskip
    have hpi := processQueueItem_skip env.prune it hskip
    refine ⟨hpi, ?_⟩
    have hev : itemEvents env.prune it = [] := by unfold itemEvents; rw [hpi]
    have hmk : itemMarks env.prune it = [] := by unfold itemMarks; rw [hpi]
    rw [processWolQueue_decomp env h1 h2,
      processWolQueue_decomp { env with items := l1 ++ l2 } h1 h2]
    show passEvents env.prune env.items ++ delBlock env.prune env.items
      = passEvents env.prune (l1 ++ l2) ++ delBlock env.prune (l1 ++ l2)
    have hpe : passEvents env.prune env.items = passEvents env.prune (l1 ++ l2) := by
      rw [hitems, passEvents_append, passEvents_cons, hev, passEvents_append]
      simp
    have hmi : markedIds env.prune env.items = markedIds env.prune (l1 ++ l2) := by
      rw [hitems, markedIds_append, markedIds_cons, hmk, markedIds_append]
      simp
    rw [hpe]
    unfold delBlock
    rw [hmi]
  · intro hpv hw
    have hpi := processQueueItem_pending env.prune it hpv
    have hmk : itemMarks env.prune it = [] := by
      unfold itemMarks
      rw [hpi]
      simp [hw]
    refine ⟨hmk, ?_⟩
    have hmi : markedIds env.prune env.items = markedIds env.prune (l1 ++ l2) := by
      rw [hitems, markedIds_append, markedIds_cons, hmk, markedIds_append]
      simp
    rw [processWolQueue_decomp env h1 h2, hitems, passEvents_append, passEvents_cons,
      List.append_assoc]
    unfold delBlock
    rw [← hitems, hmi]
    simp [List.append_assoc]

/-- Witness for C7 at a concrete malformed entry. -/
theorem queue_per_task_failure_contained_witness :
    processQueueItem c7Env.prune c7Task = ([], [])
    ∧ processWolQueue c7Env = processWolQueue { c7Env with items := [] } :=
  (queue_per_task_failure_contained c7Env [] [] c7Task rfl rfl rfl).1 rfl

/-- C8: with pruning enabled the pass trace is the evaluation events
followed by one deletion per marked id, deletions strictly after the full
pass; the marked ids are exactly the tasks whose done write succeeded this
pass plus the tasks already read back as done (the deletion loop continues
past individual failures, whose outcomes do not steer control flow). -/
theorem queue_prune_after_pass (env : QueueEnv)
    (h1 : env.ready = true) (h2 : env.bulkOk = true) (h3 : env.prune = true) :
    processWolQueue env =
      passEvents true env.items ++ (markedIds true env.items).map QEvent.del
    ∧ (∀ k, QEvent.del k ∉ passEvents true env.items)
    ∧ markedIds true env.items = env.items.filterMap markSelector := by
  refine ⟨?_, ?_, markedIds_filterMap env.items⟩
  · rw [processWolQueue_decomp env h1 h2, h3, delBlock_true]
  · intro k
    unfold passEvents
    intro hmem
    rw [List.mem_flatten] at hmem
    obtain ⟨l, hl, hk⟩ := hmem
    rw [List.mem_map] at hl
    obtain ⟨x, _, hx⟩ := hl
    rw [← hx] at hk
    exact itemEvents_no_del true x k hk

/-- Witness for C8 at a pruning environment holding one done task. -/
theorem queue_prune_after_pass_witness :
    processWolQueue c8Env =
      passEvents true c8Env.items ++ (markedIds true c8Env.items).map QEvent.del
    ∧ markedIds true c8Env.items = c8Env.items.filterMap markSelector := by
  have h := queue_prune_after_pass c8Env rfl rfl rfl
  exact ⟨h.1, h.2.2⟩

/-- C9: for each of the two fixed paths the bootstrapper writes the
default value exactly when the read reports missing-or-null; any other
read failure is non-fatal and produces no write; and when both paths read
successfully (an already-initialised store) no write at all is performed,
so a second call is a no-op. -/
theorem ensure_structure_writes_iff_missing (e : InitEnv) :
    ((IEvent.initTrigger ∈ (checkAndInitFirebaseStructure e).1)
        ↔ missingOrNull e.trigRead = true)
    ∧ ((IEvent.initQueue ∈ (checkAndInitFirebaseStructure e).1)
        ↔ missingOrNull e.queueRead = true)
    ∧ (e.trigRead.ok = true → e.queueRead.ok = true →
        (checkAndInitFirebaseStructure e).1 = [])
    ∧ (missingOrNull e.trigRead = false → missingOrNull e.queueRead = false →
        (checkAndInitFirebaseStructure e).2 = true) := by
  unfold checkAndInitFirebaseStructure missingOrNull
  cases htr : e.trigRead.ok <;> cases hqr : e.queueRead.ok <;> split_ifs <;> simp_all <;> tauto

/-- Witness for C9: a missing trigger path is initialised, an
already-initialised store produces no writes. -/
theorem ensure_structure_writes_iff_missing_witness :
    IEvent.initTrigger ∈ (checkAndInitFirebaseStructure c9EnvMissing).1
    ∧ (checkAndInitFirebaseStructure c9EnvReady).1 = [] :=
  ⟨(ensure_structure_writes_iff_missing c9EnvMissing).1.mpr rfl,
   (ensure_structure_writes_iff_missing c9EnvReady).2.2.1 rfl rfl⟩

/-- C10: when the bulk queue read fails with a genuine error (not the
null result the code treats as an empty queue), the invocation produces
no events at all: no dispatch, no write, no deletion. -/
theorem queue_bulk_read_failure_no_effects (env : QueueEnv)
    (h1 : env.ready = true) (h2 : env.bulkOk = false)
    (h3 : ¬(env.bulkHttpCode = 200 ∧ env.bulkDataType = "null")) :
    processWolQueue env = [] := by
  unfold processWolQueue
  simp [h1, h2]

/-- Witness for C10 at a concrete failed-read environment. -/
theorem queue_bulk_read_failure_no_effects_witness :
    processWolQueue c10Env = [] :=
  queue_bulk_read_failure_no_effects c10Env rfl rfl (by decide)

end EspWol
